import Mathlib

/-!
Shallow embedding of the report-analysis and fallback-summarization core of
the DOCATHOME AIDoctorChatbot repository (files `report_qa_chat.py` and
`chat_system.py`), together with theorems settling the frozen claims about
its specification.

Python strings are modelled as Lean `String`; only the ASCII behaviour of
`str.upper`, `str.lower`, `str.strip`, `str.capitalize` and of the regex
character classes is modelled, which covers the ASCII lab-report texts the
claims quantify over.
-/

namespace AIDoc

/-! ### Python string primitives -/

/-- The characters matched by the regex class `\s` and stripped by
`str.strip` (ASCII: space 32, tab 9, newline 10, carriage return 13,
vertical tab 11, form feed 12). -/
def pySpaceChar (c : Char) : Bool :=
  c.toNat = 32 || c.toNat = 9 || c.toNat = 10 || c.toNat = 13 ||
  c.toNat = 11 || c.toNat = 12

/-- `str.upper` on a single ASCII character. -/
def upChar (c : Char) : Char :=
  if 'a' ≤ c && c ≤ 'z' then Char.ofNat (c.toNat - 32) else c

/-- `str.lower` on a single ASCII character. -/
def loChar (c : Char) : Char :=
  if 'A' ≤ c && c ≤ 'Z' then Char.ofNat (c.toNat + 32) else c

/-- `str.upper`. -/
def pyUpper (s : String) : String := ⟨s.data.map upChar⟩

/-- `str.lower`. -/
def pyLower (s : String) : String := ⟨s.data.map loChar⟩

/-- `str.capitalize`: first character uppercased, the rest lowercased. -/
def pyCapitalize (s : String) : String :=
  match s.data with
  | [] => ⟨[]⟩
  | c :: cs => ⟨upChar c :: cs.map loChar⟩

/-- `str.strip()`: remove leading and trailing whitespace. -/
def pyStrip (s : String) : String :=
  ⟨((s.data.dropWhile pySpaceChar).reverse.dropWhile pySpaceChar).reverse⟩

/-- `sep.join(l)`. -/
def pyJoin (sep : String) : List String → String
  | [] => ""
  | [x] => x
  | x :: y :: rest => x ++ sep ++ pyJoin sep (y :: rest)

/-- A line-break character for `str.splitlines` (the `\r\n` pair is handled
separately by `splitlinesGo`). -/
def lineBreakChar (c : Char) : Bool :=
  c = '\n' || c = '\r' || c.toNat = 11 || c.toNat = 12 || c.toNat = 28 ||
  c.toNat = 29 || c.toNat = 30 || c.toNat = 133 || c.toNat = 0x2028 ||
  c.toNat = 0x2029

/-- Worker for `pySplitlines`; `acc` holds the current line reversed. -/
def splitlinesGo : List Char → List Char → List String
  | [], acc => if acc.isEmpty then [] else [⟨acc.reverse⟩]
  | '\r' :: '\n' :: cs, acc => ⟨acc.reverse⟩ :: splitlinesGo cs []
  | c :: cs, acc =>
    if lineBreakChar c then ⟨acc.reverse⟩ :: splitlinesGo cs []
    else splitlinesGo cs (c :: acc)

/-- `str.splitlines()`. -/
def pySplitlines (s : String) : List String := splitlinesGo s.data []

/-! ### The regex `([A-Z][A-Z0-9\s]{1,30})[:\s]+([\d.]+)\s*(HIGH|LOW|NORMAL)?`

`_parse_report_values` applies `re.search` with this pattern to each
(uppercased) line.  The engine below reproduces Python's leftmost search
with greedy, backtracking quantifiers, specialized to this fixed pattern:

* the three character classes are disjoint enough that only the label
  quantifier `{1,30}` ever needs to backtrack (the separator run `[:\s]+`
  and the value run `[\d.]+` are committed maximal runs, since giving
  characters back can never let the next sub-pattern succeed);
* at a given start position the engine tries label lengths from the longest
  available (at most 30 characters after the leading `[A-Z]`) down to 1;
* start positions are tried left to right.
-/

def isUpperAZ (c : Char) : Bool := 'A' ≤ c && c ≤ 'Z'

def isDigit09 (c : Char) : Bool := '0' ≤ c && c ≤ '9'

/-- The class `[A-Z0-9\s]` of the label tail. -/
def labelChar (c : Char) : Bool := isUpperAZ c || isDigit09 c || pySpaceChar c

/-- The class `[:\s]` of the separator. -/
def sepChar (c : Char) : Bool := c = ':' || pySpaceChar c

/-- The class `[\d.]` of the value. -/
def valChar (c : Char) : Bool := isDigit09 c || c = '.'

/-- The optional trailing group `(HIGH|LOW|NORMAL)?`, matched as a prefix of
the remaining input (the pattern ends after it, so nothing is anchored). -/
def matchStatus (cs : List Char) : Option String :=
  if "HIGH".data.isPrefixOf cs then some "HIGH"
  else if "LOW".data.isPrefixOf cs then some "LOW"
  else if "NORMAL".data.isPrefixOf cs then some "NORMAL"
  else none

/-- Match `[:\s]+([\d.]+)\s*(HIGH|LOW|NORMAL)?` against `cs`; returns the
captured value and optional status token. -/
def matchAfter (cs : List Char) : Option (String × Option String) :=
  let sep := cs.takeWhile sepChar
  let r1 := cs.dropWhile sepChar
  if sep.isEmpty then none
  else
    let v := r1.takeWhile valChar
    let r2 := r1.dropWhile valChar
    if v.isEmpty then none
    else
      let r3 := r2.dropWhile pySpaceChar
      some (⟨v⟩, matchStatus r3)

/-- Backtracking loop over the label-tail length: try length `n`, then
`n-1`, …, `1`.  `c` is the leading `[A-Z]` character, `run` the maximal
`[A-Z0-9\s]` run following it, and `rest2` the input after `run`. -/
def tryLabelLen (c : Char) (run rest2 : List Char) : Nat → Option (String × String × Option String)
  | 0 => none
  | n + 1 =>
    match matchAfter (run.drop (n + 1) ++ rest2) with
    | some (v, st) => some (⟨c :: run.take (n + 1)⟩, v, st)
    | none => tryLabelLen c run rest2 n

/-- Attempt a match anchored at the start of `cs`. -/
def tryAt (cs : List Char) : Option (String × String × Option String) :=
  match cs with
  | [] => none
  | c :: rest =>
    if isUpperAZ c then
      let run := rest.takeWhile labelChar
      let rest2 := rest.dropWhile labelChar
      tryLabelLen c run rest2 (min 30 run.length)
    else none

/-- `re.search`: try each start position left to right. -/
def reSearch : List Char → Option (String × String × Option String)
  | [] => none
  | c :: cs =>
    match tryAt (c :: cs) with
    | some r => some r
    | none => reSearch cs

/-! ### `_parse_report_values` -/

/-- One parsed lab observation: `{"value": ..., "status": ...}`. -/
structure LabObs where
  value : String
  status : String
deriving Repr, DecidableEq

/-- Process one line exactly as the loop body of `_parse_report_values`
does: uppercase the line, search the pattern, and on a match produce the
stripped label together with the observation (status capitalized, default
`"Normal"`). -/
def parseLine (line : String) : Option (String × LabObs) :=
  match reSearch (pyUpper line).data with
  | some (param, value, st) =>
    some (pyStrip param,
      { value := value
        status := match st with | some s => pyCapitalize s | none => "Normal" })
  | none => none

/-- Python `dict` assignment `d[k] = v`: update in place when the key
exists (keeping its position), otherwise append. -/
def assocUpdate {α : Type} (d : List (String × α)) (k : String) (v : α) : List (String × α) :=
  if d.any (fun p => p.1 = k) then d.map (fun p => if p.1 = k then (k, v) else p)
  else d ++ [(k, v)]

/-- Python `dict.get` / insertion-ordered lookup. -/
def assocFind {α : Type} : List (String × α) → String → Option α
  | [], _ => none
  | (k', v) :: rest, k => if k' = k then some v else assocFind rest k

/-- The fold step of `_parse_report_values` over one line. -/
def parseStep (data : List (String × LabObs)) (line : String) : List (String × LabObs) :=
  match parseLine line with
  | some kv => assocUpdate data kv.1 kv.2
  | none => data

/-- `_parse_report_values`: the insertion-ordered dict of observations. -/
def parse_report_values (text : String) : List (String × LabObs) :=
  (pySplitlines text).foldl parseStep []

/-! ### `_offline_summary` -/

/-- The entries `_offline_summary` collects into its `high` list (rendered
under the High-values section), in dict order. -/
def highEntries (parsed : List (String × LabObs)) : List String :=
  parsed.filterMap fun p =>
    if p.2.status = "High" then some (p.1 ++ ": " ++ p.2.value ++ " ↑") else none

/-- The entries collected into the `low` list. -/
def lowEntries (parsed : List (String × LabObs)) : List String :=
  parsed.filterMap fun p =>
    if p.2.status = "High" then none
    else if p.2.status = "Low" then some (p.1 ++ ": " ++ p.2.value ++ " ↓") else none

/-- The entries collected into the `normal` list (the `else` branch). -/
def normalEntries (parsed : List (String × LabObs)) : List String :=
  parsed.filterMap fun p =>
    if p.2.status = "High" then none
    else if p.2.status = "Low" then none
    else some (p.1 ++ ": " ++ p.2.value)

/-- The `output` list of lines that `_offline_summary` joins with `"\n"`. -/
def summaryOutput (parsed : List (String × LabObs)) : List String :=
  (if (normalEntries parsed).isEmpty then []
   else "✔ Normal Values:" :: (normalEntries parsed).map (fun x => "- " ++ x)) ++
  (if (highEntries parsed).isEmpty then []
   else "\n⚠ High Values:" :: (highEntries parsed).map (fun x => "- " ++ x)) ++
  (if (lowEntries parsed).isEmpty then []
   else "\n⚠ Low Values:" :: (lowEntries parsed).map (fun x => "- " ++ x)) ++
  ["\n🚨 Recommendation:", "- Please consult a qualified medical professional."]

/-- `_offline_summary`. -/
def offline_summary (parsed : List (String × LabObs)) : String :=
  if parsed.isEmpty then "⚠️ Unable to interpret report content."
  else pyJoin "\n" (summaryOutput parsed)

/-! ### The AI gateway and the report store

`self.model` is `None` when no API key is configured, otherwise an object
whose `generate_content(prompt)` either returns a response (whose `.text` we
model directly) or raises; the handler distinguishes quota errors (those
whose message contains `"429"`) from all others.  A gateway is therefore an
`Option` of a function from the prompt to an outcome. -/

inductive GenOutcome where
  | ok (text : String)
  | err (isQuota : Bool)
deriving Repr, DecidableEq

/-- One entry of `analysis_store["analyses"]`.  The spec calls the
`analysis` field `rawText` and the `ai_summary` field `aiSummary`. -/
structure ReportRecord where
  id : String
  filename : String
  analysis : String
  uploaded_at : String
  ai_summary : Option String
deriving Repr, DecidableEq

/-- `upload_report`: append a fresh record (identifier and timestamp are
generated effectfully in the source and passed explicitly here). -/
def upload_report (store : List ReportRecord) (rid ts filename content : String) :
    List ReportRecord :=
  store ++ [{ id := rid, filename := filename, analysis := content,
              uploaded_at := ts, ai_summary := none }]

/-- The summary write-back loop of `analyze_report`: set `ai_summary` on
every record whose `id` matches. -/
def updateSummary (store : List ReportRecord) (rid summary : String) : List ReportRecord :=
  store.map fun r => if r.id = rid then { r with ai_summary := some summary } else r

/-- The f-string prompt `analyze_report` sends to `generate_content`. -/
def analysisPrompt (content : String) : String :=
  "\nYou are a medical assistant.\n\nTasks:\n1. Patient-friendly summary\n2. Highlight abnormal values\n3. Simple explanation (non-diagnostic)\n4. Whether doctor consultation is advised\n\nRules:\n- Do NOT diagnose\n- Do NOT assume missing values\n\nMedical Report:\n" ++ content ++ "\n"

/-- The summary text `analyze_report` computes: the AI text when the model
is configured, the call does not raise and the text is truthy (non-empty);
otherwise the offline fallback (`if not summary:`). -/
def analyzeSummary (model : Option (String → GenOutcome)) (content : String) : String :=
  match model with
  | some gen =>
    match gen (analysisPrompt content) with
    | .ok t => if t = "" then offline_summary (parse_report_values content) else t
    | .err _ => offline_summary (parse_report_values content)
  | none => offline_summary (parse_report_values content)

/-- `analyze_report`: upload the report, compute the summary, write it back
onto the record with the fresh identifier, and return it. -/
def analyze_report (model : Option (String → GenOutcome)) (store : List ReportRecord)
    (rid ts filename content : String) : String × List ReportRecord :=
  let st1 := upload_report store rid ts filename content
  let summary := analyzeSummary model content
  (summary, updateSummary st1 rid summary)

/-! ### `answer_question` -/

/-- The combined corpus `answer_question` builds:
`"\n\n".join(report["analysis"] for report in reports)`. -/
def combinedReports (store : List ReportRecord) : String :=
  pyJoin "\n\n" (store.map fun r => r.analysis)

/-- The f-string prompt `answer_question` sends to `generate_content`. -/
def qaPrompt (combined question : String) : String :=
  "\nAnswer ONLY using the provided report data.\n\nRules:\n- Do not guess\n- Do not add new medical facts\n- If data is missing, clearly say so\n\nReports:\n" ++ combined ++ "\n\nQuestion:\n" ++ question ++ "\n"

/-- `answer_question`. -/
def answer_question (model : Option (String → GenOutcome)) (store : List ReportRecord)
    (question : String) : String :=
  if store.isEmpty then "⚠️ No reports uploaded."
  else
    let combined := combinedReports store
    match model with
    | some gen =>
      match gen (qaPrompt combined question) with
      | .ok t => t
      | .err true => "⚠️ AI quota exceeded. Please try again later."
      | .err false => offline_summary (parse_report_values combined)
    | none => offline_summary (parse_report_values combined)

/-! ### `chat_system.py`: the cached remote lookup client -/

/-- The structured response object extracted from the remote JSON:
`data.get("result", {}).get("response", {})` with its five fields
(`message` absent models `.get("message", "Not available")`). -/
structure RemoteResp where
  message : Option String
  recommendations : List String
  warnings : List String
  references : List String
  followUp : List String
deriving Repr, DecidableEq

/-- The result dict `fetch_medical_info` returns. -/
structure MedInfo where
  query : String
  description : String
  common_symptoms : String
  treatment : String
  warnings : String
  references : String
deriving Repr, DecidableEq

/-- Build the result dict from a successful remote response. -/
def buildResult (q : String) (r : RemoteResp) : MedInfo :=
  { query := q
    description := r.message.getD "Not available"
    common_symptoms :=
      if r.recommendations.isEmpty then "Not available" else pyJoin "; " r.recommendations
    treatment := if r.followUp.isEmpty then "Not available" else pyJoin "; " r.followUp
    warnings := if r.warnings.isEmpty then "None" else pyJoin "; " r.warnings
    references := if r.references.isEmpty then "None" else pyJoin "; " r.references }

/-- The degraded result returned when the API completely failed. -/
def degradedResult (q : String) : MedInfo :=
  { query := q, description := "Medical service unavailable",
    common_symptoms := "Unavailable", treatment := "Unavailable",
    warnings := "Unavailable", references := "Unavailable" }

/-- The JSON cache file, as an insertion-ordered dict. -/
abbrev Cache := List (String × MedInfo)

/-- `get_cached_response`: look up under the lowercased query. -/
def get_cached_response (cache : Cache) (query : String) : Option MedInfo :=
  assocFind cache (pyLower query)

/-- `save_cached_response`: store under the lowercased query. -/
def save_cached_response (cache : Cache) (query : String) (r : MedInfo) : Cache :=
  assocUpdate cache (pyLower query) r

/-- The retry loop `for attempt in range(3)`.  `endpoint i` is the outcome
of the `i`-th network attempt (`none` models a raised exception anywhere in
the try-body).  `i` counts the attempts already made; the returned `Nat` is
the total number of remote calls issued. -/
def fetchLoop (endpoint : Nat → Option RemoteResp) (query : String) (cache : Cache) :
    Nat → Nat → MedInfo × Cache × Nat
  | i, 0 => (degradedResult query, cache, i)
  | i, fuel + 1 =>
    match endpoint i with
    | some r =>
      let res := buildResult query r
      (res, save_cached_response cache query res, i + 1)
    | none => fetchLoop endpoint query cache (i + 1) fuel

/-- `fetch_medical_info`: cache check, then up to three remote attempts.
Returns the result dict, the cache afterwards, and the number of remote
calls issued. -/
def fetch_medical_info (endpoint : Nat → Option RemoteResp) (cache : Cache)
    (query : String) : MedInfo × Cache × Nat :=
  match get_cached_response cache query with
  | some r => (r, cache, 0)
  | none => fetchLoop endpoint query cache 0 3

/-! ### Helper lemmas -/

theorem string_data_append (a b : String) : (a ++ b).data = a.data ++ b.data := rfl

theorem string_ne_empty_of_data (s : String) (h : s.data ≠ []) : s ≠ "" :=
  fun he => h (by rw [he])

/-- Every member of a joined list occurs inside the join. -/
theorem pyJoin_mem_infix (sep : String) :
    ∀ (l : List String) (x : String), x ∈ l → x.data <:+: (pyJoin sep l).data
  | [], x, h => absurd h (List.not_mem_nil x)
  | [y], x, h => by
    rcases List.mem_singleton.mp h with rfl
    exact List.infix_rfl
  | y :: z :: rest, x, h => by
    rcases List.mem_cons.mp h with rfl | h2
    · have : x.data <+: (pyJoin sep (x :: z :: rest)).data := by
        show x.data <+: (x ++ sep ++ pyJoin sep (z :: rest)).data
        rw [string_data_append, string_data_append, List.append_assoc]
        exact List.prefix_append _ _
      exact this.isInfix
    · have ih := pyJoin_mem_infix sep (z :: rest) x h2
      have hsuf : (pyJoin sep (z :: rest)).data <:+: (pyJoin sep (y :: z :: rest)).data := by
        show (pyJoin sep (z :: rest)).data <:+: (y ++ sep ++ pyJoin sep (z :: rest)).data
        rw [string_data_append]
        exact (List.suffix_append _ _).isInfix
      exact ih.trans hsuf

theorem mem_summaryOutput_consult (parsed : List (String × LabObs)) :
    "- Please consult a qualified medical professional." ∈ summaryOutput parsed := by
  simp [summaryOutput]

/-- The offline summarizer never returns the empty string. -/
theorem offline_summary_ne_empty (parsed : List (String × LabObs)) :
    offline_summary parsed ≠ "" := by
  unfold offline_summary
  by_cases h : parsed.isEmpty = true
  · simp only [h, if_true]
    decide
  · rw [Bool.not_eq_true] at h
    simp only [h, Bool.false_eq_true, if_false]
    apply string_ne_empty_of_data
    intro hnil
    have hinf := pyJoin_mem_infix "\n" (summaryOutput parsed)
      "- Please consult a qualified medical professional." (mem_summaryOutput_consult parsed)
    rw [hnil] at hinf
    have := List.infix_nil.mp hinf
    exact absurd this (by decide)

theorem assocFind_append {α : Type} :
    ∀ (d₁ d₂ : List (String × α)) (k : String),
      assocFind (d₁ ++ d₂) k = (assocFind d₁ k).or (assocFind d₂ k)
  | [], d₂, k => by simp [assocFind]
  | (k₀, v₀) :: rest, d₂, k => by
    by_cases hk : k₀ = k
    · simp [assocFind, hk]
    · simp only [List.cons_append, assocFind, hk, if_false]
      exact assocFind_append rest d₂ k

theorem assocFind_eq_none_of_not_any {α : Type} :
    ∀ (d : List (String × α)) (k : String),
      d.any (fun p => p.1 = k) = false → assocFind d k = none
  | [], k, _ => rfl
  | (k₀, v₀) :: rest, k, h => by
    simp only [List.any_cons, Bool.or_eq_false_iff, decide_eq_false_iff_not] at h
    simp only [assocFind, h.1, if_false]
    exact assocFind_eq_none_of_not_any rest k (by simpa using h.2)

theorem assocFind_map_update_ne {α : Type} (k' k : String) (v : α) (h : k' ≠ k) :
    ∀ d : List (String × α),
      assocFind (d.map fun p => if p.1 = k' then (k', v) else p) k = assocFind d k
  | [] => rfl
  | (k₀, v₀) :: rest => by
    by_cases h0 : k₀ = k'
    · simp only [List.map_cons, h0, if_true]
      have : ¬ (k' = k) := h
      simp only [assocFind, this, if_false, h0]
      exact assocFind_map_update_ne k' k v h rest
    · simp only [List.map_cons, h0, if_false]
      by_cases hk : k₀ = k
      · simp [assocFind, hk]
      · simp only [assocFind, hk, if_false]
        exact assocFind_map_update_ne k' k v h rest

theorem assocFind_map_update_self {α : Type} (k : String) (v : α) :
    ∀ d : List (String × α), d.any (fun p => p.1 = k) = true →
      assocFind (d.map fun p => if p.1 = k then (k, v) else p) k = some v
  | [], h => by simp at h
  | (k₀, v₀) :: rest, h => by
    by_cases h0 : k₀ = k
    · subst h0
      have hh : ((k₀, v₀) :: rest).map (fun p => if p.1 = k₀ then (k₀, v) else p) =
          (k₀, v) :: rest.map (fun p => if p.1 = k₀ then (k₀, v) else p) := by
        simp
      rw [hh]
      simp [assocFind]
    · have hh : ((k₀, v₀) :: rest).map (fun p => if p.1 = k then (k, v) else p) =
          (k₀, v₀) :: rest.map (fun p => if p.1 = k then (k, v) else p) := by
        simp [h0]
      rw [hh]
      simp only [assocFind, h0, if_false]
      exact assocFind_map_update_self k v rest (by simpa [h0] using h)

/-- Lookup after a Python dict assignment. -/
theorem assocFind_update {α : Type} (d : List (String × α)) (k' k : String) (v : α) :
    assocFind (assocUpdate d k' v) k = if k' = k then some v else assocFind d k := by
  unfold assocUpdate
  by_cases hany : d.any (fun p => p.1 = k') = true
  · simp only [hany, if_true]
    by_cases hk : k' = k
    · subst hk
      rw [assocFind_map_update_self k' v d hany, if_pos rfl]
    · rw [assocFind_map_update_ne k' k v hk d, if_neg hk]
  · rw [Bool.not_eq_true] at hany
    simp only [hany, Bool.false_eq_true, if_false]
    rw [assocFind_append]
    by_cases hk : k' = k
    · subst hk
      rw [assocFind_eq_none_of_not_any d k' hany]
      simp [assocFind]
    · have : assocFind [(k', v)] k = none := by simp [assocFind, hk]
      rw [this, Option.or_none, if_neg hk]

theorem assocFind_update_self {α : Type} (d : List (String × α)) (k : String) (v : α) :
    assocFind (assocUpdate d k v) k = some v := by
  rw [assocFind_update]; simp

theorem assocFind_update_other {α : Type} (d : List (String × α)) (k' k : String) (v : α)
    (h : k' ≠ k) : assocFind (assocUpdate d k' v) k = assocFind d k := by
  rw [assocFind_update]; simp [h]

/-- A found binding is a member of the association list. -/
theorem assocFind_mem {α : Type} :
    ∀ (d : List (String × α)) (k : String) (v : α), assocFind d k = some v → (k, v) ∈ d
  | [], k, v, h => by simp [assocFind] at h
  | (k₀, v₀) :: rest, k, v, h => by
    by_cases hk : k₀ = k
    · subst hk
      simp only [assocFind, if_true] at h
      cases h
      exact List.mem_cons_self _ _
    · simp only [assocFind, hk, if_false] at h
      exact List.mem_cons_of_mem _ (assocFind_mem rest k v h)

/-! ### Claim C4 -/

/-- C4: with an empty document store, `answer_question` returns the fixed
"no reports uploaded" message for every question, for every gateway state
(the gateway, the parser and the store are never consulted: the result does
not depend on them, and the operation reads but never writes the store). -/
theorem c4_empty_store_fixed_message (model : Option (String → GenOutcome)) (q : String) :
    answer_question model [] q = "⚠️ No reports uploaded." := rfl

/-! ### Claim C6 -/

/-- C6: against a non-empty store with the gateway available, a
quota-exceeded failure (`"429" in str(e)`) yields the fixed "quota
exceeded" message, and any other failure yields the offline fallback on the
parsed combined corpus; both are ordinary return values, so neither failure
propagates. -/
theorem c6_quota_message_other_failure_fallback (f g : String → GenOutcome)
    (store : List ReportRecord) (q : String) (h : store ≠ [])
    (hf : f (qaPrompt (combinedReports store) q) = GenOutcome.err true)
    (hg : g (qaPrompt (combinedReports store) q) = GenOutcome.err false) :
    answer_question (some f) store q = "⚠️ AI quota exceeded. Please try again later." ∧
    answer_question (some g) store q =
      offline_summary (parse_report_values (combinedReports store)) := by
  have hne : store.isEmpty = false := by
    cases store with
    | nil => exact absurd rfl h
    | cons a l => rfl
  constructor
  · simp only [answer_question, hne, Bool.false_eq_true, if_false, hf]
  · simp only [answer_question, hne, Bool.false_eq_true, if_false, hg]

theorem c6_witness :
    answer_question (some fun _ => GenOutcome.err true)
        [⟨"id1", "r.pdf", "GLUCOSE: 100", "t1", none⟩] "what is my glucose" =
      "⚠️ AI quota exceeded. Please try again later." ∧
    answer_question (some fun _ => GenOutcome.err false)
        [⟨"id1", "r.pdf", "GLUCOSE: 100", "t1", none⟩] "what is my glucose" =
      offline_summary (parse_report_values
        (combinedReports [⟨"id1", "r.pdf", "GLUCOSE: 100", "t1", none⟩])) :=
  c6_quota_message_other_failure_fallback _ _ _ _ (by decide) rfl rfl

/-- The summary `analyze_report` computes is never the empty string. -/
theorem analyzeSummary_ne_empty (model : Option (String → GenOutcome)) (content : String) :
    analyzeSummary model content ≠ "" := by
  cases model with
  | none => exact offline_summary_ne_empty _
  | some gen =>
    show (match gen (analysisPrompt content) with
      | GenOutcome.ok t => if t = "" then offline_summary (parse_report_values content) else t
      | GenOutcome.err _ => offline_summary (parse_report_values content)) ≠ ""
    cases hm : gen (analysisPrompt content) with
    | ok t =>
      by_cases ht : t = ""
      · simp only [ht, if_pos rfl]
        exact offline_summary_ne_empty _
      · simp only [if_neg ht]
        exact ht
    | err b => exact offline_summary_ne_empty _

theorem analyzeSummary_ok (gen : String → GenOutcome) (content t : String)
    (ht : t ≠ "") (hgen : gen (analysisPrompt content) = GenOutcome.ok t) :
    analyzeSummary (some gen) content = t := by
  show (match gen (analysisPrompt content) with
    | GenOutcome.ok t => if t = "" then offline_summary (parse_report_values content) else t
    | GenOutcome.err _ => offline_summary (parse_report_values content)) = t
  rw [hgen]
  simp [ht]

theorem analyzeSummary_err (gen : String → GenOutcome) (content : String) (b : Bool)
    (hgen : gen (analysisPrompt content) = GenOutcome.err b) :
    analyzeSummary (some gen) content = offline_summary (parse_report_values content) := by
  show (match gen (analysisPrompt content) with
    | GenOutcome.ok t => if t = "" then offline_summary (parse_report_values content) else t
    | GenOutcome.err _ => offline_summary (parse_report_values content)) = _
  rw [hgen]

theorem analyzeSummary_ok_empty (gen : String → GenOutcome) (content : String)
    (hgen : gen (analysisPrompt content) = GenOutcome.ok "") :
    analyzeSummary (some gen) content = offline_summary (parse_report_values content) := by
  show (match gen (analysisPrompt content) with
    | GenOutcome.ok t => if t = "" then offline_summary (parse_report_values content) else t
    | GenOutcome.err _ => offline_summary (parse_report_values content)) = _
  rw [hgen]
  simp

/-! ### Claim C3 -/

/-- C3: `analyze_report` always returns non-empty text, whatever the
gateway does: the AI output when the gateway succeeds with (non-empty)
text, the offline summary of the parsed report when the gateway is
unavailable or fails with any error, and — since the offline summarizer of
an empty parse is the fixed "unable to interpret" message — some text on
every path; in the shallow embedding the operation is a total function, so
no input or gateway failure raises outward. -/
theorem c3_analyze_report_total_nonempty :
    (∀ (model : Option (String → GenOutcome)) (store : List ReportRecord)
        (rid ts fn content : String),
        (analyze_report model store rid ts fn content).1 ≠ "") ∧
    (∀ (gen : String → GenOutcome) (store : List ReportRecord) (rid ts fn content t : String),
        t ≠ "" → gen (analysisPrompt content) = GenOutcome.ok t →
        (analyze_report (some gen) store rid ts fn content).1 = t) ∧
    (∀ (gen : String → GenOutcome) (store : List ReportRecord) (rid ts fn content : String)
        (b : Bool), gen (analysisPrompt content) = GenOutcome.err b →
        (analyze_report (some gen) store rid ts fn content).1 =
          offline_summary (parse_report_values content)) ∧
    (∀ (store : List ReportRecord) (rid ts fn content : String),
        (analyze_report none store rid ts fn content).1 =
          offline_summary (parse_report_values content)) ∧
    (∀ content : String, parse_report_values content = [] →
        offline_summary (parse_report_values content) =
          "⚠️ Unable to interpret report content.") := by
  refine ⟨?_, ?_, ?_, ?_, ?_⟩
  · intro model store rid ts fn content
    exact analyzeSummary_ne_empty model content
  · intro gen store rid ts fn content t ht hgen
    exact analyzeSummary_ok gen content t ht hgen
  · intro gen store rid ts fn content b hgen
    exact analyzeSummary_err gen content b hgen
  · intro store rid ts fn content
    rfl
  · intro content hempty
    rw [hempty]
    rfl

theorem c3_witness :
    (analyze_report (some fun _ => GenOutcome.ok "AI summary text") [] "r1" "t1" "a.pdf"
        "GLUCOSE: 100").1 = "AI summary text" ∧
    (analyze_report (some fun _ => GenOutcome.err false) [] "r1" "t1" "a.pdf"
        "GLUCOSE: 100").1 = offline_summary (parse_report_values "GLUCOSE: 100") ∧
    (analyze_report none [] "r1" "t1" "a.pdf" "GLUCOSE: 100").1 ≠ "" ∧
    offline_summary (parse_report_values "no lab values here") =
      "⚠️ Unable to interpret report content." :=
  ⟨c3_analyze_report_total_nonempty.2.1 _ _ "r1" "t1" "a.pdf" _ _ (by decide) rfl,
   c3_analyze_report_total_nonempty.2.2.1 _ _ "r1" "t1" "a.pdf" _ false rfl,
   c3_analyze_report_total_nonempty.1 none [] "r1" "t1" "a.pdf" "GLUCOSE: 100",
   c3_analyze_report_total_nonempty.2.2.2.2 "no lab values here" (by decide)⟩

/-! ### Claim C10 -/

/-- C10: when the gateway call in `analyze_report` succeeds but returns the
empty string, the `if not summary:` check treats it like a failure: the
empty text is discarded and the offline summary of the parsed report is
returned instead, so the returned summary is never the empty string. -/
theorem c10_empty_ai_text_treated_as_failure (f : String → GenOutcome)
    (store : List ReportRecord) (rid ts fn content : String)
    (h : f (analysisPrompt content) = GenOutcome.ok "") :
    (analyze_report (some f) store rid ts fn content).1 =
      offline_summary (parse_report_values content) ∧
    (∀ (model : Option (String → GenOutcome)) (store2 : List ReportRecord)
        (rid2 ts2 fn2 c2 : String),
        (analyze_report model store2 rid2 ts2 fn2 c2).1 ≠ "") := by
  constructor
  · exact analyzeSummary_ok_empty f content h
  · intro model store2 rid2 ts2 fn2 c2
    exact analyzeSummary_ne_empty model c2

theorem c10_witness :
    (analyze_report (some fun _ => GenOutcome.ok "") [] "r1" "t1" "a.pdf" "WBC: 6.2").1 =
      offline_summary (parse_report_values "WBC: 6.2") ∧
    (analyze_report (some fun _ => GenOutcome.ok "") [] "r1" "t1" "a.pdf" "WBC: 6.2").1 ≠ "" :=
  ⟨(c10_empty_ai_text_treated_as_failure (fun _ => GenOutcome.ok "") [] "r1" "t1" "a.pdf"
      "WBC: 6.2" rfl).1,
   (c10_empty_ai_text_treated_as_failure (fun _ => GenOutcome.ok "") [] "r1" "t1" "a.pdf"
      "WBC: 6.2" rfl).2 (some fun _ => GenOutcome.ok "") [] "r1" "t1" "a.pdf" "WBC: 6.2"⟩

/-! ### Claim C5 -/

/-- C5 counterexample: the combined corpus `answer_question` builds is
`"\n\n".join` of the `analysis` (`rawText`) fields alone — the filenames of
the records appear nowhere in it, so the corpus is not "each prefixed by
that record's filename" as the claim states. -/
theorem c5_counterexample :
    combinedReports [⟨"id1", "FILEAAA", "GLUCOSE: 100", "t1", none⟩,
                     ⟨"id2", "FILEBBB", "WBC: 5", "t2", none⟩] = "GLUCOSE: 100\n\nWBC: 5" ∧
    ¬ ("FILEAAA".data <:+: ("GLUCOSE: 100\n\nWBC: 5" : String).data) ∧
    ¬ ("FILEBBB".data <:+: ("GLUCOSE: 100\n\nWBC: 5" : String).data) :=
  ⟨rfl, by decide, by decide⟩

/-- Modelled from the spec's words, as amended by `c5_counterexample`: the
combined corpus is the concatenation of the `rawText` field of every record
in store insertion order, blank-line separated, with no filename prefix. -/
def specCombinedCorpus : List ReportRecord → String
  | [] => ""
  | [r] => r.analysis
  | r :: rest => r.analysis ++ "\n\n" ++ specCombinedCorpus rest

theorem combinedReports_eq_spec : ∀ store, combinedReports store = specCombinedCorpus store
  | [] => rfl
  | [r] => rfl
  | r :: s :: rest => by
    show r.analysis ++ "\n\n" ++ combinedReports (s :: rest) =
      r.analysis ++ "\n\n" ++ specCombinedCorpus (s :: rest)
    rw [combinedReports_eq_spec (s :: rest)]

/-- C5 amended: for every non-empty store, the corpus `answer_question`
builds and passes to the gateway prompt (and to the offline fallback) is
the concatenation of the `rawText` of every record in store order — but
without filename prefixes. -/
theorem c5_amended_corpus_no_filenames (store : List ReportRecord)
    (f : String → GenOutcome) (q : String) (h : store ≠ []) :
    combinedReports store = specCombinedCorpus store ∧
    answer_question (some f) store q =
      (match f (qaPrompt (specCombinedCorpus store) q) with
       | GenOutcome.ok t => t
       | GenOutcome.err true => "⚠️ AI quota exceeded. Please try again later."
       | GenOutcome.err false =>
         offline_summary (parse_report_values (specCombinedCorpus store))) := by
  have hne : store.isEmpty = false := by
    cases store with
    | nil => exact absurd rfl h
    | cons a l => rfl
  refine ⟨combinedReports_eq_spec store, ?_⟩
  simp only [answer_question, hne, Bool.false_eq_true, if_false]
  rw [combinedReports_eq_spec store]

theorem c5_witness :
    combinedReports [⟨"id1", "a.pdf", "GLUCOSE: 100", "t1", none⟩,
                     ⟨"id2", "b.pdf", "WBC: 5", "t2", none⟩] =
      specCombinedCorpus [⟨"id1", "a.pdf", "GLUCOSE: 100", "t1", none⟩,
                          ⟨"id2", "b.pdf", "WBC: 5", "t2", none⟩] ∧
    answer_question (some fun _ => GenOutcome.ok "fine")
        [⟨"id1", "a.pdf", "GLUCOSE: 100", "t1", none⟩,
         ⟨"id2", "b.pdf", "WBC: 5", "t2", none⟩] "how am I" = "fine" :=
  ⟨(c5_amended_corpus_no_filenames _ (fun _ => GenOutcome.ok "fine") "how am I"
      (by decide)).1,
   (c5_amended_corpus_no_filenames _ (fun _ => GenOutcome.ok "fine") "how am I"
      (by decide)).2⟩

/-! ### Claims C7 and C8: the cached remote lookup client -/

theorem fetchLoop_step_none (ep : Nat → Option RemoteResp) (q : String) (c : Cache)
    (i fuel : Nat) (h : ep i = none) :
    fetchLoop ep q c i (fuel + 1) = fetchLoop ep q c (i + 1) fuel := by
  show (match ep i with
    | some r => (buildResult q r, save_cached_response c q (buildResult q r), i + 1)
    | none => fetchLoop ep q c (i + 1) fuel) = fetchLoop ep q c (i + 1) fuel
  rw [h]

theorem fetchLoop_step_some (ep : Nat → Option RemoteResp) (q : String) (c : Cache)
    (i fuel : Nat) (r : RemoteResp) (h : ep i = some r) :
    fetchLoop ep q c i (fuel + 1) =
      (buildResult q r, save_cached_response c q (buildResult q r), i + 1) := by
  show (match ep i with
    | some r => (buildResult q r, save_cached_response c q (buildResult q r), i + 1)
    | none => fetchLoop ep q c (i + 1) fuel) = _
  rw [h]

theorem fetch_medical_info_miss (ep : Nat → Option RemoteResp) (c : Cache) (q : String)
    (hmiss : get_cached_response c q = none) :
    fetch_medical_info ep c q = fetchLoop ep q c 0 3 := by
  show (match get_cached_response c q with
    | some r => (r, c, 0)
    | none => fetchLoop ep q c 0 3) = _
  rw [hmiss]

theorem fetch_medical_info_hit (ep : Nat → Option RemoteResp) (c : Cache) (q : String)
    (r : MedInfo) (hhit : get_cached_response c q = some r) :
    fetch_medical_info ep c q = (r, c, 0) := by
  show (match get_cached_response c q with
    | some r => (r, c, 0)
    | none => fetchLoop ep q c 0 3) = _
  rw [hhit]

/-- Each pass of the retry loop with fuel left issues at least one call. -/
theorem fetchLoop_calls_lower (ep : Nat → Option RemoteResp) (q : String) (c : Cache) :
    ∀ (fuel i : Nat), i + 1 ≤ (fetchLoop ep q c i (fuel + 1)).2.2
  | 0, i => by
    rcases h : ep i with _ | r
    · rw [fetchLoop_step_none ep q c i 0 h]
      show i + 1 ≤ i + 1
      exact Nat.le_refl _
    · rw [fetchLoop_step_some ep q c i 0 r h]
  | fuel + 1, i => by
    rcases h : ep i with _ | r
    · rw [fetchLoop_step_none ep q c i (fuel + 1) h]
      exact Nat.le_trans (Nat.le_succ _) (fetchLoop_calls_lower ep q c fuel (i + 1))
    · rw [fetchLoop_step_some ep q c i (fuel + 1) r h]

/-- Any uncached lookup issues at least one remote call. -/
theorem fetch_medical_info_calls_pos (ep : Nat → Option RemoteResp) (c : Cache) (q : String)
    (hmiss : get_cached_response c q = none) :
    1 ≤ (fetch_medical_info ep c q).2.2 := by
  rw [fetch_medical_info_miss ep c q hmiss]
  exact fetchLoop_calls_lower ep q c 2 0

/-- C7 counterexample: when all three attempts fail on an uncached query,
the returned degraded result does not have every field set to
`"unavailable"`: the `query` field echoes the query and the `description`
field is `"Medical service unavailable"`. -/
theorem c7_counterexample :
    fetch_medical_info (fun _ => none) [] "COLD" = (degradedResult "COLD", [], 3) ∧
    ¬ ((degradedResult "COLD").query = "unavailable" ∧
       (degradedResult "COLD").description = "unavailable" ∧
       (degradedResult "COLD").common_symptoms = "unavailable" ∧
       (degradedResult "COLD").treatment = "unavailable" ∧
       (degradedResult "COLD").warnings = "unavailable" ∧
       (degradedResult "COLD").references = "unavailable") :=
  ⟨rfl, by decide⟩

/-- C7 amended: when the remote endpoint fails on all 3 attempts of an
uncached query, `fetch_medical_info` returns (rather than raises) the fixed
degraded result — `query` echoed, `description` `"Medical service
unavailable"`, the remaining fields `"Unavailable"` — leaves the cache
unchanged, and a subsequent call with the same query issues fresh remote
attempts (at least one remote call). -/
theorem c7_amended_degraded_not_cached (endpoint ep2 : Nat → Option RemoteResp)
    (cache : Cache) (query : String)
    (hmiss : get_cached_response cache query = none)
    (h0 : endpoint 0 = none) (h1 : endpoint 1 = none) (h2 : endpoint 2 = none) :
    fetch_medical_info endpoint cache query = (degradedResult query, cache, 3) ∧
    1 ≤ (fetch_medical_info ep2 cache query).2.2 := by
  constructor
  · calc fetch_medical_info endpoint cache query
        = fetchLoop endpoint query cache 0 3 := fetch_medical_info_miss endpoint cache query hmiss
      _ = fetchLoop endpoint query cache 1 2 := fetchLoop_step_none endpoint query cache 0 2 h0
      _ = fetchLoop endpoint query cache 2 1 := fetchLoop_step_none endpoint query cache 1 1 h1
      _ = fetchLoop endpoint query cache 3 0 := fetchLoop_step_none endpoint query cache 2 0 h2
      _ = (degradedResult query, cache, 3) := rfl
  · exact fetch_medical_info_calls_pos ep2 cache query hmiss

theorem c7_witness :
    fetch_medical_info (fun _ => none) [] "flu symptoms" =
      (degradedResult "flu symptoms", [], 3) ∧
    1 ≤ (fetch_medical_info (fun _ => none) [] "flu symptoms").2.2 :=
  c7_amended_degraded_not_cached (fun _ => none) (fun _ => none) [] "flu symptoms"
    rfl rfl rfl rfl

/-- C8: for an uncached query whose endpoint fails twice then succeeds on
the third attempt, the lookup returns the successful result after exactly 3
remote calls and caches it under the case-folded query; a subsequent call
with a query equal up to letter case returns that cached result with no
remote call and no cache change. -/
theorem c8_retry_success_then_cached (endpoint ep2 : Nat → Option RemoteResp)
    (cache : Cache) (query q2 : String) (r : RemoteResp)
    (hmiss : get_cached_response cache query = none)
    (h0 : endpoint 0 = none) (h1 : endpoint 1 = none) (h2 : endpoint 2 = some r)
    (hcase : pyLower q2 = pyLower query) :
    fetch_medical_info endpoint cache query =
      (buildResult query r, save_cached_response cache query (buildResult query r), 3) ∧
    fetch_medical_info ep2 (save_cached_response cache query (buildResult query r)) q2 =
      (buildResult query r, save_cached_response cache query (buildResult query r), 0) := by
  constructor
  · calc fetch_medical_info endpoint cache query
        = fetchLoop endpoint query cache 0 3 := fetch_medical_info_miss endpoint cache query hmiss
      _ = fetchLoop endpoint query cache 1 2 := fetchLoop_step_none endpoint query cache 0 2 h0
      _ = fetchLoop endpoint query cache 2 1 := fetchLoop_step_none endpoint query cache 1 1 h1
      _ = (buildResult query r, save_cached_response cache query (buildResult query r), 3) :=
        fetchLoop_step_some endpoint query cache 2 0 r h2
  · apply fetch_medical_info_hit
    show assocFind (assocUpdate cache (pyLower query) (buildResult query r)) (pyLower q2) =
      some (buildResult query r)
    rw [hcase]
    exact assocFind_update_self cache (pyLower query) (buildResult query r)

theorem c8_witness :
    fetch_medical_info (fun i => if i = 2 then some ⟨some "rest", [], [], [], []⟩ else none)
        [] "Flu" =
      (buildResult "Flu" ⟨some "rest", [], [], [], []⟩,
       save_cached_response [] "Flu" (buildResult "Flu" ⟨some "rest", [], [], [], []⟩), 3) ∧
    fetch_medical_info (fun _ => none)
        (save_cached_response [] "Flu" (buildResult "Flu" ⟨some "rest", [], [], [], []⟩))
        "FLU" =
      (buildResult "Flu" ⟨some "rest", [], [], [], []⟩,
       save_cached_response [] "Flu" (buildResult "Flu" ⟨some "rest", [], [], [], []⟩), 0) :=
  c8_retry_success_then_cached _ (fun _ => none) [] "Flu" "FLU" ⟨some "rest", [], [], [], []⟩
    rfl rfl rfl rfl rfl

/-! ### Claim C9 -/

/-- C9: a record appended by `upload_report` round-trips: it sits at the
end of the store with exactly the given `id`, `filename` and `rawText`
(and a `None` summary); and the write-back `analyze_report` performs
changes only the `ai_summary` field of records whose `id` matches the fresh
identifier, leaving every field of every other record (and every other
field of the matching record) unchanged, position by position. -/
theorem c9_roundtrip_and_frame (model : Option (String → GenOutcome))
    (store : List ReportRecord) (rid ts fn content : String) :
    (upload_report store rid ts fn content).getLast? =
      some ⟨rid, fn, content, ts, none⟩ ∧
    (⟨rid, fn, content, ts, none⟩ : ReportRecord) ∈ upload_report store rid ts fn content ∧
    (∀ (i : Nat) (r r' : ReportRecord),
      (upload_report store rid ts fn content)[i]? = some r →
      ((analyze_report model store rid ts fn content).2)[i]? = some r' →
      r'.id = r.id ∧ r'.filename = r.filename ∧ r'.analysis = r.analysis ∧
      r'.uploaded_at = r.uploaded_at ∧
      (r.id ≠ rid → r' = r) ∧
      (r.id = rid → r'.ai_summary =
        some (analyze_report model store rid ts fn content).1)) := by
  refine ⟨?_, ?_, ?_⟩
  · show (store ++ [(⟨rid, fn, content, ts, none⟩ : ReportRecord)]).getLast? = _
    rw [List.getLast?_append]
    rfl
  · exact List.mem_append_right store (List.mem_singleton.mpr rfl)
  · intro i r r' hr hr'
    have hmap : ((analyze_report model store rid ts fn content).2)[i]? =
        ((upload_report store rid ts fn content)[i]?).map
          (fun x => if x.id = rid then { x with ai_summary := some (analyzeSummary model content) } else x) := by
      show (List.map _ (upload_report store rid ts fn content))[i]? = _
      rw [List.getElem?_map]
    rw [hmap, hr] at hr'
    simp only [Option.map_some'] at hr'
    by_cases hid : r.id = rid
    · rw [if_pos hid] at hr'
      cases hr'
      exact ⟨rfl, rfl, rfl, rfl, fun hne => absurd hid hne, fun _ => rfl⟩
    · rw [if_neg hid] at hr'
      cases hr'
      exact ⟨rfl, rfl, rfl, rfl, fun _ => rfl,
        fun heq => absurd heq hid⟩

theorem c9_witness :
    (upload_report [⟨"old", "o.pdf", "WBC: 5", "t0", some "s"⟩] "new" "t1" "n.pdf"
        "GLUCOSE: 100").getLast? = some ⟨"new", "n.pdf", "GLUCOSE: 100", "t1", none⟩ ∧
    (⟨"new", "n.pdf", "GLUCOSE: 100", "t1", none⟩ : ReportRecord) ∈
      upload_report [⟨"old", "o.pdf", "WBC: 5", "t0", some "s"⟩] "new" "t1" "n.pdf"
        "GLUCOSE: 100" ∧
    ((analyze_report none [⟨"old", "o.pdf", "WBC: 5", "t0", some "s"⟩] "new" "t1" "n.pdf"
        "GLUCOSE: 100").2)[0]? = some ⟨"old", "o.pdf", "WBC: 5", "t0", some "s"⟩ := by
  have h := c9_roundtrip_and_frame none [⟨"old", "o.pdf", "WBC: 5", "t0", some "s"⟩]
    "new" "t1" "n.pdf" "GLUCOSE: 100"
  refine ⟨h.1, h.2.1, ?_⟩
  have h3 := h.2.2 0 ⟨"old", "o.pdf", "WBC: 5", "t0", some "s"⟩
  have hup : (upload_report [⟨"old", "o.pdf", "WBC: 5", "t0", some "s"⟩] "new" "t1" "n.pdf"
      "GLUCOSE: 100")[0]? = some ⟨"old", "o.pdf", "WBC: 5", "t0", some "s"⟩ := rfl
  rcases hex : ((analyze_report none [⟨"old", "o.pdf", "WBC: 5", "t0", some "s"⟩] "new" "t1"
      "n.pdf" "GLUCOSE: 100").2)[0]? with _ | r'
  · exact absurd hex (by decide)
  · have := (h3 r' hup hex).2.2.2.2.1 (by decide)
    rw [this]

/-! ### Character-class facts used by the regex proofs -/

theorem char_le_iff (a b : Char) : a ≤ b ↔ a.toNat ≤ b.toNat := by
  rw [Char.le_def, UInt32.le_def, BitVec.le_def]
  rfl

theorem isUpperAZ_iff (c : Char) : isUpperAZ c = true ↔ 65 ≤ c.toNat ∧ c.toNat ≤ 90 := by
  have hA : ('A' : Char).toNat = 65 := rfl
  have hZ : ('Z' : Char).toNat = 90 := rfl
  simp only [isUpperAZ, Bool.and_eq_true, decide_eq_true_eq, char_le_iff, hA, hZ]

theorem isDigit09_iff (c : Char) : isDigit09 c = true ↔ 48 ≤ c.toNat ∧ c.toNat ≤ 57 := by
  have h0 : ('0' : Char).toNat = 48 := rfl
  have h9 : ('9' : Char).toNat = 57 := rfl
  simp only [isDigit09, Bool.and_eq_true, decide_eq_true_eq, char_le_iff, h0, h9]

theorem pySpaceChar_iff (c : Char) : pySpaceChar c = true ↔
    c.toNat = 32 ∨ c.toNat = 9 ∨ c.toNat = 10 ∨ c.toNat = 13 ∨
    c.toNat = 11 ∨ c.toNat = 12 := by
  simp only [pySpaceChar, Bool.or_eq_true, decide_eq_true_eq]
  tauto

theorem sepChar_toNat (c : Char) (h : sepChar c = true) :
    c.toNat = 58 ∨ c.toNat = 32 ∨ c.toNat = 9 ∨ c.toNat = 10 ∨ c.toNat = 13 ∨
    c.toNat = 11 ∨ c.toNat = 12 := by
  rcases Bool.or_eq_true_iff.mp h with h' | h'
  · left
    rw [decide_eq_true_eq.mp h']
    rfl
  · right
    exact (pySpaceChar_iff c).mp h'

theorem valChar_toNat (c : Char) (h : valChar c = true) :
    (48 ≤ c.toNat ∧ c.toNat ≤ 57) ∨ c.toNat = 46 := by
  rcases Bool.or_eq_true_iff.mp h with h' | h'
  · exact Or.inl ((isDigit09_iff c).mp h')
  · right
    rw [decide_eq_true_eq.mp h']
    rfl

theorem labelChar_toNat (c : Char) (h : labelChar c = true) :
    (65 ≤ c.toNat ∧ c.toNat ≤ 90) ∨ (48 ≤ c.toNat ∧ c.toNat ≤ 57) ∨
    c.toNat = 32 ∨ c.toNat = 9 ∨ c.toNat = 10 ∨ c.toNat = 13 ∨
    c.toNat = 11 ∨ c.toNat = 12 := by
  rcases Bool.or_eq_true_iff.mp h with h' | h'
  · rcases Bool.or_eq_true_iff.mp h' with h'' | h''
    · exact Or.inl ((isUpperAZ_iff c).mp h'')
    · exact Or.inr (Or.inl ((isDigit09_iff c).mp h''))
  · exact Or.inr (Or.inr ((pySpaceChar_iff c).mp h'))

/-- A value character (`[\d.]`) is not a separator character (`[:\s]`). -/
theorem val_not_sep (c : Char) (h : valChar c = true) : sepChar c = false := by
  rw [Bool.eq_false_iff]
  intro hs
  have h1 := valChar_toNat c h
  have h2 := sepChar_toNat c hs
  omega

/-- A whitespace character is not a value character. -/
theorem space_not_val (c : Char) (h : pySpaceChar c = true) : valChar c = false := by
  rw [Bool.eq_false_iff]
  intro hv
  have h1 := (pySpaceChar_iff c).mp h
  have h2 := valChar_toNat c hv
  omega

/-- A character in both the label class and the separator class is
whitespace. -/
theorem label_and_sep_space (c : Char) (hl : labelChar c = true) (hs : sepChar c = true) :
    pySpaceChar c = true := by
  rw [pySpaceChar_iff]
  have h1 := labelChar_toNat c hl
  have h2 := sepChar_toNat c hs
  omega

/-- `upChar` fixes every character outside `a`–`z`. -/
theorem upChar_id_of_not_lower (c : Char) (h : ¬ (97 ≤ c.toNat ∧ c.toNat ≤ 122)) :
    upChar c = c := by
  unfold upChar
  have ha : ('a' : Char).toNat = 97 := rfl
  have hz : ('z' : Char).toNat = 122 := rfl
  have : ('a' ≤ c && c ≤ 'z') = false := by
    rw [Bool.and_eq_false_iff]
    by_cases h1 : 97 ≤ c.toNat
    · right
      rw [decide_eq_false_iff_not]
      rw [char_le_iff, hz]
      omega
    · left
      rw [decide_eq_false_iff_not]
      rw [char_le_iff, ha]
      omega
  rw [this]
  rfl

theorem space_sep (c : Char) (h : pySpaceChar c = true) : sepChar c = true := by
  simp [sepChar, h]

theorem upper_not_space (c : Char) (h : isUpperAZ c = true) : pySpaceChar c = false := by
  rw [Bool.eq_false_iff]
  intro hs
  have h1 := (isUpperAZ_iff c).mp h
  have h2 := (pySpaceChar_iff c).mp hs
  omega

/-! ### Behaviour of `matchAfter` -/

/-- The committed-runs reading of `matchAfter`, as one expression. -/
theorem matchAfter_unfold (cs : List Char) :
    matchAfter cs =
      if (cs.takeWhile sepChar).isEmpty then none
      else if ((cs.dropWhile sepChar).takeWhile valChar).isEmpty then none
      else some (⟨(cs.dropWhile sepChar).takeWhile valChar⟩,
        matchStatus (((cs.dropWhile sepChar).dropWhile valChar).dropWhile pySpaceChar)) :=
  rfl

theorem matchAfter_nil : matchAfter [] = none := rfl

/-- The separator run `[:\s]+` needs at least one character. -/
theorem matchAfter_head_not_sep (d : Char) (ds : List Char) (h : sepChar d = false) :
    matchAfter (d :: ds) = none := by
  rw [matchAfter_unfold, List.takeWhile_cons_of_neg (by simp [h])]
  rfl

/-- A separator run followed by nothing, or by a character that is neither
separator nor value, cannot complete the `[:\s]+([\d.]+)` part. -/
theorem matchAfter_sep_not_val (S' rest : List Char)
    (hS' : ∀ x ∈ S', sepChar x = true)
    (hrest : rest = [] ∨ ∃ d ds, rest = d :: ds ∧ sepChar d = false ∧ valChar d = false) :
    matchAfter (S' ++ rest) = none := by
  have htwr : rest.takeWhile sepChar = [] := by
    rcases hrest with rfl | ⟨d, ds, rfl, hd, _⟩
    · rfl
    · exact List.takeWhile_cons_of_neg (by simp [hd])
  have hdwr : rest.dropWhile sepChar = rest := by
    rcases hrest with rfl | ⟨d, ds, rfl, hd, _⟩
    · rfl
    · exact List.dropWhile_cons_of_neg (by simp [hd])
  have htwv : rest.takeWhile valChar = [] := by
    rcases hrest with rfl | ⟨d, ds, rfl, _, hd⟩
    · rfl
    · exact List.takeWhile_cons_of_neg (by simp [hd])
  rw [matchAfter_unfold, List.takeWhile_append_of_pos hS', htwr, List.append_nil,
    List.dropWhile_append_of_pos hS', hdwr, htwv]
  cases S' with
  | nil => rfl
  | cons a l => rfl

/-- Successful shape: separator run, value run, optional tail. -/
theorem matchAfter_svr (S V R : List Char)
    (hS : ∀ x ∈ S, sepChar x = true) (hS0 : S ≠ [])
    (hV : ∀ x ∈ V, valChar x = true) (hV0 : V ≠ [])
    (hR : R = [] ∨ ∃ d ds, R = d :: ds ∧ valChar d = false) :
    matchAfter (S ++ (V ++ R)) =
      some (⟨V⟩, matchStatus (R.dropWhile pySpaceChar)) := by
  have htwv0 : R.takeWhile valChar = [] := by
    rcases hR with rfl | ⟨d, ds, rfl, hd⟩
    · rfl
    · exact List.takeWhile_cons_of_neg (by simp [hd])
  have hdwv0 : R.dropWhile valChar = R := by
    rcases hR with rfl | ⟨d, ds, rfl, hd⟩
    · rfl
    · exact List.dropWhile_cons_of_neg (by simp [hd])
  have htwV : (V ++ R).takeWhile sepChar = [] := by
    cases V with
    | nil => exact absurd rfl hV0
    | cons d ds =>
      rw [List.cons_append]
      exact List.takeWhile_cons_of_neg
        (by simp [val_not_sep d (hV d (List.mem_cons_self _ _))])
  have hdwV : (V ++ R).dropWhile sepChar = V ++ R := by
    cases V with
    | nil => exact absurd rfl hV0
    | cons d ds =>
      rw [List.cons_append]
      exact List.dropWhile_cons_of_neg
        (by simp [val_not_sep d (hV d (List.mem_cons_self _ _))])
  rw [matchAfter_unfold, List.takeWhile_append_of_pos hS, htwV, List.append_nil,
    List.dropWhile_append_of_pos hS, hdwV, List.takeWhile_append_of_pos hV, htwv0,
    List.append_nil, List.dropWhile_append_of_pos hV, hdwv0]
  have hSe : S.isEmpty = false := by
    cases S with
    | nil => exact absurd rfl hS0
    | cons a l => rfl
  have hVe : V.isEmpty = false := by
    cases V with
    | nil => exact absurd rfl hV0
    | cons a l => rfl
  rw [hSe, hVe]
  rfl

/-- Dropping at least the whole separator run from `S ++ (V ++ R)` leaves
an input on which `matchAfter` fails: the regex label cannot extend into
the value or the status tail. -/
theorem matchAfter_drop_fails (S V R : List Char)
    (hV : ∀ x ∈ V, valChar x = true)
    (hR : R = [] ∨ ∃ W T, (∀ x ∈ W, pySpaceChar x = true) ∧
      (T = "HIGH".data ∨ T = "LOW".data ∨ T = "NORMAL".data) ∧ R = W ++ T) :
    ∀ k, S.length ≤ k → matchAfter ((S ++ (V ++ R)).drop k) = none := by
  intro k hk
  rw [List.drop_append_eq_append_drop, List.drop_eq_nil_of_le hk, List.nil_append,
    List.drop_append_eq_append_drop]
  by_cases hjV : k - S.length < V.length
  · rw [Nat.sub_eq_zero_of_le (Nat.le_of_lt hjV), List.drop_zero]
    rcases hd : V.drop (k - S.length) with _ | ⟨d, ds⟩
    · exfalso
      have := List.length_drop (k - S.length) V
      rw [hd] at this
      simp at this
      omega
    · have hdV : d ∈ V := List.drop_subset _ V (hd ▸ List.mem_cons_self d ds)
      rw [List.cons_append]
      exact matchAfter_head_not_sep d (ds ++ R) (val_not_sep d (hV d hdV))
  · rw [List.drop_eq_nil_of_le (Nat.le_of_not_lt hjV), List.nil_append]
    rcases hR with rfl | ⟨W, T, hW, hT, rfl⟩
    · rw [List.drop_nil]
      exact matchAfter_nil
    · have hT0 : ∃ d ds, T = d :: ds ∧ sepChar d = false ∧ valChar d = false := by
        rcases hT with rfl | rfl | rfl
        · exact ⟨'H', _, rfl, by decide, by decide⟩
        · exact ⟨'L', _, rfl, by decide, by decide⟩
        · exact ⟨'N', _, rfl, by decide, by decide⟩
      rw [List.drop_append_eq_append_drop]
      by_cases hiW : k - S.length - V.length < W.length
      · rw [Nat.sub_eq_zero_of_le (Nat.le_of_lt hiW), List.drop_zero]
        apply matchAfter_sep_not_val
        · intro x hx
          exact space_sep x (hW x (List.drop_subset _ W hx))
        · exact Or.inr hT0
      · rw [List.drop_eq_nil_of_le (Nat.le_of_not_lt hiW), List.nil_append]
        rcases hd : T.drop (k - S.length - V.length - W.length) with _ | ⟨d, ds⟩
        · exact matchAfter_nil
        · have hdT : d ∈ T := List.drop_subset _ T (hd ▸ List.mem_cons_self d ds)
          have hsep : sepChar d = false := by
            rcases hT with rfl | rfl | rfl
            · exact (by decide : ∀ x ∈ "HIGH".data, sepChar x = false) d hdT
            · exact (by decide : ∀ x ∈ "LOW".data, sepChar x = false) d hdT
            · exact (by decide : ∀ x ∈ "NORMAL".data, sepChar x = false) d hdT
          exact matchAfter_head_not_sep d ds hsep

/-- The greedy backtracking loop: if some admissible length `n₀` succeeds,
the loop returns a match for the largest succeeding length `n ≥ n₀`. -/
theorem tryLabelLen_finds (c : Char) (run rest2 : List Char) :
    ∀ (m n₀ : Nat), 1 ≤ n₀ → n₀ ≤ m →
      matchAfter (run.drop n₀ ++ rest2) ≠ none →
      ∃ n v st, n₀ ≤ n ∧ n ≤ m ∧
        matchAfter (run.drop n ++ rest2) = some (v, st) ∧
        tryLabelLen c run rest2 m = some (⟨c :: run.take n⟩, v, st)
  | 0, n₀, h1, hm, _ => absurd hm (by omega)
  | m + 1, n₀, h1, hm, hsucc => by
    rcases hma : matchAfter (run.drop (m + 1) ++ rest2) with _ | ⟨v, st⟩
    · have hne : n₀ ≠ m + 1 := fun he => hsucc (he ▸ hma)
      have hm' : n₀ ≤ m := by omega
      obtain ⟨n, v, st, hn0, hnm, hmatch, hres⟩ :=
        tryLabelLen_finds c run rest2 m n₀ h1 hm' hsucc
      refine ⟨n, v, st, hn0, Nat.le_succ_of_le hnm, hmatch, ?_⟩
      show (match matchAfter (run.drop (m + 1) ++ rest2) with
        | some (v, st) => some ((⟨c :: run.take (m + 1)⟩ : String), v, st)
        | none => tryLabelLen c run rest2 m) = _
      rw [hma]
      exact hres
    · refine ⟨m + 1, v, st, by omega, Nat.le_refl _, hma, ?_⟩
      show (match matchAfter (run.drop (m + 1) ++ rest2) with
        | some (v, st) => some ((⟨c :: run.take (m + 1)⟩ : String), v, st)
        | none => tryLabelLen c run rest2 m) = _
      rw [hma]

/-- Trailing whitespace is invisible to `str.strip()`. -/
theorem pyStrip_append_spaces (c : Char) (ls sp : List Char)
    (hc : pySpaceChar c = false) (hsp : ∀ x ∈ sp, pySpaceChar x = true) :
    pyStrip ⟨c :: (ls ++ sp)⟩ = pyStrip ⟨c :: ls⟩ := by
  unfold pyStrip
  have h1 : (c :: (ls ++ sp)).dropWhile pySpaceChar = c :: (ls ++ sp) :=
    List.dropWhile_cons_of_neg (by simp [hc])
  have h2 : (c :: ls).dropWhile pySpaceChar = c :: ls :=
    List.dropWhile_cons_of_neg (by simp [hc])
  show (⟨(((c :: (ls ++ sp)).dropWhile pySpaceChar).reverse.dropWhile pySpaceChar).reverse⟩ : String) =
    ⟨(((c :: ls).dropWhile pySpaceChar).reverse.dropWhile pySpaceChar).reverse⟩
  rw [h1, h2]
  have h3 : (c :: (ls ++ sp)).reverse = sp.reverse ++ (c :: ls).reverse := by
    rw [List.reverse_cons, List.reverse_append, List.reverse_cons, List.append_assoc]
  rw [h3, List.dropWhile_append_of_pos
    (fun x hx => hsp x (List.mem_reverse.mp hx))]

theorem parseStep_eq (acc : List (String × LabObs)) (l : String) :
    parseStep acc l =
      match parseLine l with
      | some kv => assocUpdate acc kv.1 kv.2
      | none => acc := rfl

theorem parseStep_key_stable (acc : List (String × LabObs)) (l k : String)
    (h : ∃ v, assocFind acc k = some v) :
    ∃ v, assocFind (parseStep acc l) k = some v := by
  obtain ⟨v, hv⟩ := h
  rcases hp : parseLine l with _ | kv
  · exact ⟨v, by rw [parseStep_eq, hp]; exact hv⟩
  · by_cases hk : kv.1 = k
    · exact ⟨kv.2, by rw [parseStep_eq, hp, assocFind_update, if_pos hk]⟩
    · exact ⟨v, by rw [parseStep_eq, hp, assocFind_update, if_neg hk]; exact hv⟩

theorem foldl_parseStep_key :
    ∀ (lines : List String) (acc : List (String × LabObs)) (k : String),
      (∃ v, assocFind acc k = some v) →
      ∃ v, assocFind (lines.foldl parseStep acc) k = some v
  | [], _, _, h => h
  | l :: rest, acc, k, h => by
    rw [List.foldl_cons]
    exact foldl_parseStep_key rest _ k (parseStep_key_stable acc l k h)

/-- If some line of the text parses to key `k`, the final dict has key `k`. -/
theorem foldl_parseStep_key_of_line :
    ∀ (lines : List String) (acc : List (String × LabObs)) (k : String) (v : LabObs)
      (l₀ : String), l₀ ∈ lines → parseLine l₀ = some (k, v) →
      ∃ obs, assocFind (lines.foldl parseStep acc) k = some obs
  | [], _, _, _, _, hmem, _ => absurd hmem (List.not_mem_nil _)
  | l :: rest, acc, k, v, l₀, hmem, hp => by
    rw [List.foldl_cons]
    rcases List.mem_cons.mp hmem with rfl | hmem'
    · exact foldl_parseStep_key rest _ k
        ⟨v, by rw [parseStep_eq, hp]; exact assocFind_update_self acc k v⟩
    · exact foldl_parseStep_key_of_line rest _ k v l₀ hmem' hp

/-- The status field `parseLine` stores for a captured optional token. -/
def statusOf (st : Option String) : String :=
  match st with
  | some s => pyCapitalize s
  | none => "Normal"

theorem parseLine_eq_of_search (line param v : String) (st : Option String)
    (h : reSearch (pyUpper line).data = some (param, v, st)) :
    parseLine line = some (pyStrip param, ⟨v, statusOf st⟩) := by
  unfold parseLine
  rw [h]
  rfl

/-- On a line of the shape label-separator-value-optional-status, the regex
search succeeds and the recorded (stripped) parameter equals the stripped
label: the greedy label can only extend over whitespace of the separator,
which stripping removes. -/
theorem parseLine_structured (c : Char) (ls S V R : List Char)
    (hc : isUpperAZ c = true)
    (hls : ∀ x ∈ ls, labelChar x = true) (hls1 : 1 ≤ ls.length) (hls30 : ls.length ≤ 30)
    (hS : ∀ x ∈ S, sepChar x = true) (hS0 : S ≠ [])
    (hV : ∀ x ∈ V, valChar x = true) (hV0 : V ≠ [])
    (hR : R = [] ∨ ∃ W T, (∀ x ∈ W, pySpaceChar x = true) ∧
      (T = "HIGH".data ∨ T = "LOW".data ∨ T = "NORMAL".data) ∧ R = W ++ T) :
    ∃ obs, parseLine ⟨c :: (ls ++ (S ++ (V ++ R)))⟩ = some (pyStrip ⟨c :: ls⟩, obs) := by
  have hRhead : R = [] ∨ ∃ d ds, R = d :: ds ∧ valChar d = false := by
    rcases hR with rfl | ⟨W, T, hW, hT, rfl⟩
    · exact Or.inl rfl
    · right
      cases W with
      | nil =>
        rcases hT with rfl | rfl | rfl
        · exact ⟨'H', _, rfl, by decide⟩
        · exact ⟨'L', _, rfl, by decide⟩
        · exact ⟨'N', _, rfl, by decide⟩
      | cons w ws =>
        exact ⟨w, ws ++ T, rfl, space_not_val w (hW w (List.mem_cons_self _ _))⟩
  have hupfix : ∀ x ∈ c :: (ls ++ (S ++ (V ++ R))), upChar x = x := by
    intro x hx
    rcases List.mem_cons.mp hx with rfl | hx'
    · exact upChar_id_of_not_lower x (by have := (isUpperAZ_iff x).mp hc; omega)
    rcases List.mem_append.mp hx' with hx'' | hx''
    · exact upChar_id_of_not_lower x (by have := labelChar_toNat x (hls x hx''); omega)
    rcases List.mem_append.mp hx'' with hx3 | hx3
    · exact upChar_id_of_not_lower x (by have := sepChar_toNat x (hS x hx3); omega)
    rcases List.mem_append.mp hx3 with hx4 | hx4
    · exact upChar_id_of_not_lower x (by have := valChar_toNat x (hV x hx4); omega)
    · rcases hR with rfl | ⟨W, T, hW, hT, rfl⟩
      · exact absurd hx4 (List.not_mem_nil x)
      rcases List.mem_append.mp hx4 with hx5 | hx5
      · exact upChar_id_of_not_lower x (by have := (pySpaceChar_iff x).mp (hW x hx5); omega)
      · rcases hT with rfl | rfl | rfl
        · exact (by decide : ∀ y ∈ "HIGH".data, upChar y = y) x hx5
        · exact (by decide : ∀ y ∈ "LOW".data, upChar y = y) x hx5
        · exact (by decide : ∀ y ∈ "NORMAL".data, upChar y = y) x hx5
  have hupper : pyUpper ⟨c :: (ls ++ (S ++ (V ++ R)))⟩ = ⟨c :: (ls ++ (S ++ (V ++ R)))⟩ := by
    show (⟨(c :: (ls ++ (S ++ (V ++ R)))).map upChar⟩ : String) = _
    rw [List.map_congr_left (fun a ha => hupfix a ha)]
    rw [show (fun (a : Char) => a) = id from rfl, List.map_id]
  have hrun : (ls ++ (S ++ (V ++ R))).takeWhile labelChar =
      ls ++ (S ++ (V ++ R)).takeWhile labelChar := List.takeWhile_append_of_pos hls
  have hrest2 : (ls ++ (S ++ (V ++ R))).dropWhile labelChar =
      (S ++ (V ++ R)).dropWhile labelChar := List.dropWhile_append_of_pos hls
  have hsvr := matchAfter_svr S V R hS hS0 hV hV0 hRhead
  have htail : (S ++ (V ++ R)).takeWhile labelChar ++ (S ++ (V ++ R)).dropWhile labelChar =
      S ++ (V ++ R) := List.takeWhile_append_dropWhile _ _
  have hd1 : (ls ++ (S ++ (V ++ R)).takeWhile labelChar).drop ls.length ++
      (S ++ (V ++ R)).dropWhile labelChar = S ++ (V ++ R) := by
    rw [List.drop_left, htail]
  have hsucc0 : matchAfter ((ls ++ (S ++ (V ++ R)).takeWhile labelChar).drop ls.length ++
      (S ++ (V ++ R)).dropWhile labelChar) ≠ none := by
    rw [hd1, hsvr]
    intro h
    cases h
  have hlen : ls.length ≤
      min 30 (ls ++ (S ++ (V ++ R)).takeWhile labelChar).length := by
    refine Nat.le_min.mpr ⟨hls30, ?_⟩
    rw [List.length_append]
    omega
  obtain ⟨n, v, st, hn0, hnm, hmatch, hres⟩ :=
    tryLabelLen_finds c (ls ++ (S ++ (V ++ R)).takeWhile labelChar)
      ((S ++ (V ++ R)).dropWhile labelChar)
      (min 30 (ls ++ (S ++ (V ++ R)).takeWhile labelChar).length) ls.length
      hls1 hlen hsucc0
  have hkT : n - ls.length ≤ ((S ++ (V ++ R)).takeWhile labelChar).length := by
    have h1 : n ≤ (ls ++ (S ++ (V ++ R)).takeWhile labelChar).length :=
      Nat.le_trans hnm (Nat.min_le_right _ _)
    rw [List.length_append] at h1
    omega
  have hsp : ∀ x ∈ ((S ++ (V ++ R)).takeWhile labelChar).take (n - ls.length),
      pySpaceChar x = true := by
    rcases Nat.eq_zero_or_pos (n - ls.length) with hk0 | hk1
    · rw [hk0, List.take_zero]
      intro x hx
      exact absurd hx (List.not_mem_nil x)
    · have hn : n = ls.length + (n - ls.length) := by omega
      have e1 : (ls ++ (S ++ (V ++ R)).takeWhile labelChar).drop n =
          ((S ++ (V ++ R)).takeWhile labelChar).drop (n - ls.length) := by
        conv_lhs => rw [hn]
        exact List.drop_append _
      have e2 : (S ++ (V ++ R)).drop (n - ls.length) =
          ((S ++ (V ++ R)).takeWhile labelChar).drop (n - ls.length) ++
            (S ++ (V ++ R)).dropWhile labelChar := by
        conv_lhs => rw [← htail]
        rw [List.drop_append_eq_append_drop, Nat.sub_eq_zero_of_le hkT, List.drop_zero]
      have hdk : (ls ++ (S ++ (V ++ R)).takeWhile labelChar).drop n ++
          (S ++ (V ++ R)).dropWhile labelChar = (S ++ (V ++ R)).drop (n - ls.length) := by
        rw [e1, e2]
      rw [hdk] at hmatch
      have hk_lt_S : n - ls.length < S.length := by
        by_contra hge
        have hfail := matchAfter_drop_fails S V R hV hR (n - ls.length)
          (Nat.le_of_not_lt hge)
        rw [hfail] at hmatch
        cases hmatch
      have htk : ((S ++ (V ++ R)).takeWhile labelChar).take (n - ls.length) =
          S.take (n - ls.length) := by
        obtain ⟨t, ht⟩ := List.takeWhile_prefix (l := S ++ (V ++ R)) labelChar
        have h1 : (S ++ (V ++ R)).take (n - ls.length) =
            ((S ++ (V ++ R)).takeWhile labelChar).take (n - ls.length) := by
          conv_lhs => rw [← ht]
          exact List.take_append_of_le_length hkT
        have h2 : (S ++ (V ++ R)).take (n - ls.length) = S.take (n - ls.length) :=
          List.take_append_of_le_length (Nat.le_of_lt hk_lt_S)
        rw [← h1, h2]
      intro x hx
      have hxlab : labelChar x = true :=
        List.mem_takeWhile_imp (List.take_subset _ _ hx)
      rw [htk] at hx
      have hxS : x ∈ S := List.take_subset _ _ hx
      exact label_and_sep_space x hxlab (hS x hxS)
  have hparam : pyStrip ⟨c :: (ls ++ (S ++ (V ++ R)).takeWhile labelChar).take n⟩ =
      pyStrip ⟨c :: ls⟩ := by
    have hn : n = ls.length + (n - ls.length) := by omega
    have htake : (ls ++ (S ++ (V ++ R)).takeWhile labelChar).take n =
        ls ++ ((S ++ (V ++ R)).takeWhile labelChar).take (n - ls.length) := by
      conv_lhs => rw [hn]
      exact List.take_append _
    rw [htake]
    exact pyStrip_append_spaces c ls _ (upper_not_space c hc) hsp
  have htry : tryAt (c :: (ls ++ (S ++ (V ++ R)))) =
      some (⟨c :: (ls ++ (S ++ (V ++ R)).takeWhile labelChar).take n⟩, v, st) := by
    show (if isUpperAZ c = true then
        tryLabelLen c ((ls ++ (S ++ (V ++ R))).takeWhile labelChar)
          ((ls ++ (S ++ (V ++ R))).dropWhile labelChar)
          (min 30 ((ls ++ (S ++ (V ++ R))).takeWhile labelChar).length)
      else none) = _
    rw [if_pos hc, hrun, hrest2]
    exact hres
  have hsearch : reSearch (c :: (ls ++ (S ++ (V ++ R)))) =
      some (⟨c :: (ls ++ (S ++ (V ++ R)).takeWhile labelChar).take n⟩, v, st) := by
    show (match tryAt (c :: (ls ++ (S ++ (V ++ R)))) with
      | some r => some r
      | none => reSearch (ls ++ (S ++ (V ++ R)))) = _
    rw [htry]
  have hupdata : (pyUpper ⟨c :: (ls ++ (S ++ (V ++ R)))⟩).data = c :: (ls ++ (S ++ (V ++ R))) :=
    congrArg String.data hupper
  have hsearch2 : reSearch (pyUpper ⟨c :: (ls ++ (S ++ (V ++ R)))⟩).data =
      some (⟨c :: (ls ++ (S ++ (V ++ R)).takeWhile labelChar).take n⟩, v, st) := by
    rw [hupdata]
    exact hsearch
  refine ⟨(⟨v, statusOf st⟩ : LabObs), ?_⟩
  rw [parseLine_eq_of_search _ _ _ _ hsearch2, hparam]

/-! ### Claim C2 -/

/-- C2 counterexample: the label group of the pattern is
`[A-Z][A-Z0-9\s]{1,30}`, so a label needs at least two characters; the
one-character label `K` in `"K: 4.5"` is not extracted and the parse of
that text records nothing at all. -/
theorem c2_counterexample :
    parse_report_values "K: 4.5" = [] ∧
    assocFind (parse_report_values "K: 4.5") "K" = none ∧
    parseLine "K: 4.5" = none := by
  refine ⟨by decide, by decide, by decide⟩

/-- C2 amended: for every line of the input consisting of a label of 2 to
31 characters — an uppercase letter followed by 1 to 30 uppercase
letters/digits/spaces — then a separator run (colons/whitespace), then a
decimal numeric value (digits/dots), optionally followed by whitespace and
one of the tokens HIGH/LOW/NORMAL, the parser records an observation for
that (trimmed) label; one-character labels such as `K` in `"K: 4.5"` are
not extracted (see the counterexample). -/
theorem c2_amended_label_length (text : String) (c : Char) (ls S V R : List Char)
    (hmem : (⟨c :: (ls ++ (S ++ (V ++ R)))⟩ : String) ∈ pySplitlines text)
    (hc : isUpperAZ c = true)
    (hls : ∀ x ∈ ls, labelChar x = true) (hls1 : 1 ≤ ls.length) (hls30 : ls.length ≤ 30)
    (hS : ∀ x ∈ S, sepChar x = true) (hS0 : S ≠ [])
    (hV : ∀ x ∈ V, valChar x = true) (hV0 : V ≠ [])
    (hR : R = [] ∨ ∃ W T, (∀ x ∈ W, pySpaceChar x = true) ∧
      (T = "HIGH".data ∨ T = "LOW".data ∨ T = "NORMAL".data) ∧ R = W ++ T) :
    ∃ obs, assocFind (parse_report_values text) (pyStrip ⟨c :: ls⟩) = some obs := by
  obtain ⟨obs, hp⟩ := parseLine_structured c ls S V R hc hls hls1 hls30 hS hS0 hV hV0 hR
  exact foldl_parseStep_key_of_line (pySplitlines text) [] (pyStrip ⟨c :: ls⟩) obs
    ⟨c :: (ls ++ (S ++ (V ++ R)))⟩ hmem hp

theorem c2_witness :
    ∃ obs, assocFind (parse_report_values "NA: 4.5") (pyStrip ⟨'N' :: ['A']⟩) = some obs :=
  c2_amended_label_length "NA: 4.5" 'N' ['A'] [':', ' '] ['4', '.', '5'] []
    (by decide) (by decide) (by decide) (by decide) (by decide) (by decide)
    (by decide) (by decide) (by decide) (Or.inl rfl)

/-! ### Claim C1 -/

/-- If every line that parses to key `k` yields the observation `v₀`, an
existing binding `k ↦ v₀` survives the whole fold. -/
theorem foldl_parseStep_keeps :
    ∀ (lines : List String) (acc : List (String × LabObs)) (k : String) (v₀ : LabObs),
      (∀ l ∈ lines, ∀ kv, parseLine l = some kv → kv.1 = k → kv.2 = v₀) →
      assocFind acc k = some v₀ →
      assocFind (lines.foldl parseStep acc) k = some v₀
  | [], _, _, _, _, hacc => hacc
  | l :: rest, acc, k, v₀, hall, hacc => by
    rw [List.foldl_cons]
    apply foldl_parseStep_keeps rest _ k v₀
      (fun l' hl' => hall l' (List.mem_cons_of_mem _ hl'))
    rcases hp : parseLine l with _ | kv
    · rw [parseStep_eq, hp]
      exact hacc
    · rw [parseStep_eq, hp]
      by_cases hk : kv.1 = k
      · have hv : kv.2 = v₀ := hall l (List.mem_cons_self _ _) kv hp hk
        rw [← hk, ← hv]
        exact assocFind_update_self acc kv.1 kv.2
      · rw [assocFind_update, if_neg hk]
        exact hacc

/-- If some line of the list parses to `k ↦ v₀` and every line that parses
to key `k` yields `v₀`, the fold ends with `k ↦ v₀`. -/
theorem foldl_parseStep_binds :
    ∀ (lines : List String) (acc : List (String × LabObs)) (k : String) (v₀ : LabObs)
      (l₀ : String), l₀ ∈ lines → parseLine l₀ = some (k, v₀) →
      (∀ l ∈ lines, ∀ kv, parseLine l = some kv → kv.1 = k → kv.2 = v₀) →
      assocFind (lines.foldl parseStep acc) k = some v₀
  | [], _, _, _, _, hmem, _, _ => absurd hmem (List.not_mem_nil _)
  | l :: rest, acc, k, v₀, l₀, hmem, hp₀, hall => by
    rw [List.foldl_cons]
    rcases List.mem_cons.mp hmem with rfl | hmem'
    · apply foldl_parseStep_keeps rest _ k v₀
        (fun l' hl' => hall l' (List.mem_cons_of_mem _ hl'))
      rw [parseStep_eq, hp₀]
      exact assocFind_update_self acc k v₀
    · exact foldl_parseStep_binds rest (parseStep acc l) k v₀ l₀ hmem' hp₀
        (fun l' hl' => hall l' (List.mem_cons_of_mem _ hl'))

theorem mem_output_of_high (parsed : List (String × LabObs)) (x : String)
    (hx : x ∈ highEntries parsed) : ("- " ++ x) ∈ summaryOutput parsed := by
  have hne : (highEntries parsed).isEmpty = false := by
    cases h : highEntries parsed with
    | nil => rw [h] at hx; exact absurd hx (List.not_mem_nil x)
    | cons a l => rfl
  unfold summaryOutput
  apply List.mem_append_left
  apply List.mem_append_left
  apply List.mem_append_right
  simp only [hne, Bool.false_eq_true, if_false]
  exact List.mem_cons_of_mem _ (List.mem_map_of_mem _ hx)

theorem mem_output_of_normal (parsed : List (String × LabObs)) (x : String)
    (hx : x ∈ normalEntries parsed) : ("- " ++ x) ∈ summaryOutput parsed := by
  have hne : (normalEntries parsed).isEmpty = false := by
    cases h : normalEntries parsed with
    | nil => rw [h] at hx; exact absurd hx (List.not_mem_nil x)
    | cons a l => rfl
  unfold summaryOutput
  apply List.mem_append_left
  apply List.mem_append_left
  apply List.mem_append_left
  simp only [hne, Bool.false_eq_true, if_false]
  exact List.mem_cons_of_mem _ (List.mem_map_of_mem _ hx)

theorem infix_offline_of_mem_output (parsed : List (String × LabObs)) (s : String)
    (hparsed : parsed ≠ []) (hs : s ∈ summaryOutput parsed) :
    s.data <:+: (offline_summary parsed).data := by
  have hne : parsed.isEmpty = false := by
    cases parsed with
    | nil => exact absurd rfl hparsed
    | cons a l => rfl
  unfold offline_summary
  simp only [hne, Bool.false_eq_true, if_false]
  exact pyJoin_mem_infix "\n" (summaryOutput parsed) s hs

theorem parseLine_glucose_high :
    parseLine "GLUCOSE: 180 HIGH" = some ("GLUCOSE", ⟨"180", "High"⟩) := by decide

theorem parseLine_wbc :
    parseLine "WBC: 6.2" = some ("WBC", ⟨"6.2", "Normal"⟩) := by decide

/-- C1 counterexample: a text containing both required lines whose parse
does not map GLUCOSE to `180/High` — a later `GLUCOSE` line overwrites the
entry (Python dict semantics), so the claim fails as universally stated,
and GLUCOSE is not listed with an up-arrow in the offline summary. -/
theorem c1_counterexample :
    "GLUCOSE: 180 HIGH" ∈ pySplitlines "GLUCOSE: 180 HIGH\nWBC: 6.2\nGLUCOSE: 90 LOW" ∧
    "WBC: 6.2" ∈ pySplitlines "GLUCOSE: 180 HIGH\nWBC: 6.2\nGLUCOSE: 90 LOW" ∧
    assocFind (parse_report_values "GLUCOSE: 180 HIGH\nWBC: 6.2\nGLUCOSE: 90 LOW")
      "GLUCOSE" = some ⟨"90", "Low"⟩ ∧
    ¬ (assocFind (parse_report_values "GLUCOSE: 180 HIGH\nWBC: 6.2\nGLUCOSE: 90 LOW")
        "GLUCOSE" = some ⟨"180", "High"⟩) ∧
    ¬ ("GLUCOSE: 180 ↑" ∈ highEntries
        (parse_report_values "GLUCOSE: 180 HIGH\nWBC: 6.2\nGLUCOSE: 90 LOW")) := by
  refine ⟨by decide, by decide, by decide, by decide, by decide⟩

/-- C1 amended: for every text whose lines include `"GLUCOSE: 180 HIGH"`
and `"WBC: 6.2"` and in which no other line parses to the label `GLUCOSE`
or `WBC` (otherwise the later line overwrites the entry), the parse maps
GLUCOSE to value `"180"`, status `"High"` and WBC to value `"6.2"`, status
`"Normal"` (the absent marker defaulting to Normal), and the offline
summary lists `WBC: 6.2` under the Normal-values section and
`GLUCOSE: 180 ↑` (up-arrow marker) under the High-values section. -/
theorem c1_amended_parse_and_sections (text : String)
    (h1 : "GLUCOSE: 180 HIGH" ∈ pySplitlines text)
    (h2 : "WBC: 6.2" ∈ pySplitlines text)
    (hG : ∀ l ∈ pySplitlines text,
      (parseLine l).map Prod.fst = some "GLUCOSE" → l = "GLUCOSE: 180 HIGH")
    (hW : ∀ l ∈ pySplitlines text,
      (parseLine l).map Prod.fst = some "WBC" → l = "WBC: 6.2") :
    assocFind (parse_report_values text) "GLUCOSE" = some ⟨"180", "High"⟩ ∧
    assocFind (parse_report_values text) "WBC" = some ⟨"6.2", "Normal"⟩ ∧
    "WBC: 6.2" ∈ normalEntries (parse_report_values text) ∧
    "GLUCOSE: 180 ↑" ∈ highEntries (parse_report_values text) ∧
    ("- WBC: 6.2" : String).data <:+: (offline_summary (parse_report_values text)).data ∧
    ("- GLUCOSE: 180 ↑" : String).data <:+:
      (offline_summary (parse_report_values text)).data := by
  have hallG : ∀ l ∈ pySplitlines text, ∀ kv, parseLine l = some kv →
      kv.1 = "GLUCOSE" → kv.2 = (⟨"180", "High"⟩ : LabObs) := by
    intro l hl kv hp hk
    have hline : l = "GLUCOSE: 180 HIGH" := hG l hl (by rw [hp, Option.map_some', hk])
    rw [hline, parseLine_glucose_high] at hp
    cases hp
    rfl
  have hallW : ∀ l ∈ pySplitlines text, ∀ kv, parseLine l = some kv →
      kv.1 = "WBC" → kv.2 = (⟨"6.2", "Normal"⟩ : LabObs) := by
    intro l hl kv hp hk
    have hline : l = "WBC: 6.2" := hW l hl (by rw [hp, Option.map_some', hk])
    rw [hline, parseLine_wbc] at hp
    cases hp
    rfl
  have hgl : assocFind (parse_report_values text) "GLUCOSE" = some ⟨"180", "High"⟩ :=
    foldl_parseStep_binds (pySplitlines text) [] "GLUCOSE" ⟨"180", "High"⟩
      "GLUCOSE: 180 HIGH" h1 parseLine_glucose_high hallG
  have hwb : assocFind (parse_report_values text) "WBC" = some ⟨"6.2", "Normal"⟩ :=
    foldl_parseStep_binds (pySplitlines text) [] "WBC" ⟨"6.2", "Normal"⟩
      "WBC: 6.2" h2 parseLine_wbc hallW
  have hmemG : ("GLUCOSE", (⟨"180", "High"⟩ : LabObs)) ∈ parse_report_values text :=
    assocFind_mem _ _ _ hgl
  have hmemW : ("WBC", (⟨"6.2", "Normal"⟩ : LabObs)) ∈ parse_report_values text :=
    assocFind_mem _ _ _ hwb
  have hWn : "WBC: 6.2" ∈ normalEntries (parse_report_values text) :=
    List.mem_filterMap.mpr ⟨("WBC", ⟨"6.2", "Normal"⟩), hmemW, by decide⟩
  have hGh : "GLUCOSE: 180 ↑" ∈ highEntries (parse_report_values text) :=
    List.mem_filterMap.mpr ⟨("GLUCOSE", ⟨"180", "High"⟩), hmemG, by decide⟩
  have hne : parse_report_values text ≠ [] := List.ne_nil_of_mem hmemG
  refine ⟨hgl, hwb, hWn, hGh, ?_, ?_⟩
  · exact infix_offline_of_mem_output _ _ hne (mem_output_of_normal _ _ hWn)
  · exact infix_offline_of_mem_output _ _ hne (mem_output_of_high _ _ hGh)

theorem c1_witness :
    assocFind (parse_report_values "GLUCOSE: 180 HIGH\nWBC: 6.2") "GLUCOSE" =
      some ⟨"180", "High"⟩ ∧
    assocFind (parse_report_values "GLUCOSE: 180 HIGH\nWBC: 6.2") "WBC" =
      some ⟨"6.2", "Normal"⟩ ∧
    "WBC: 6.2" ∈ normalEntries (parse_report_values "GLUCOSE: 180 HIGH\nWBC: 6.2") ∧
    "GLUCOSE: 180 ↑" ∈ highEntries (parse_report_values "GLUCOSE: 180 HIGH\nWBC: 6.2") ∧
    ("- WBC: 6.2" : String).data <:+:
      (offline_summary (parse_report_values "GLUCOSE: 180 HIGH\nWBC: 6.2")).data ∧
    ("- GLUCOSE: 180 ↑" : String).data <:+:
      (offline_summary (parse_report_values "GLUCOSE: 180 HIGH\nWBC: 6.2")).data :=
  c1_amended_parse_and_sections "GLUCOSE: 180 HIGH\nWBC: 6.2"
    (by decide) (by decide) (by decide) (by decide)

end AIDoc
